import Mathlib

/-!
Verification of the Parvis voice-assistant core (repository Prawal-Sharma/Parvis).

This file gives a shallow embedding, in Lean 4, of the parts of the Python
source that the verified claims are about:

* `src/assistant/intents.py` — the intent registry and classifier
  (`Intent.matches`, `TimerIntent`, `WeatherIntent`, `TimeIntent`,
  `TranslationIntent`, `IntentManager.classify_and_handle`,
  `IntentManager._is_vision_request`);
* `src/assistant/pipeline.py` — the conversation turn executor
  (`SpeechPipeline.process_voice_input`, `get_performance_stats`);
* `src/vision/detector.py` — `format_detections_for_speech`;
* `src/assistant/hotword.py` and `src/assistant/parvis.py` — the wake-word
  gate, modelled as a labelled transition system.

Conventions of the embedding:

* Python `float` scores and confidences become `ℚ` (the scores in the source
  are short sums of 0.3/0.5/0.7/1.0, where exact arithmetic and the source
  float arithmetic order identically).
* Calls across the external-collaborator boundary (speech-to-text, the
  generative model, text-to-speech, wall-clock time) become explicit
  parameters or record fields.
* Fallible code returns `Option`/`Except`; caught Python exceptions are
  explicit error branches.
* The regular expressions of the source are transcribed into an executable
  abstract syntax (`RE`) interpreted by a backtracking matcher whose
  preference order (leftmost start, left alternative first, greedy and lazy
  repetition) follows the `re` module on the constructs used.
* Strings are treated at the level of Unicode code points via `Char`;
  lowercasing models `str.lower` on ASCII, which covers every string the
  source compares.
-/

set_option maxRecDepth 8000

/-! ## Python string primitives -/

/-- Whitespace as `str.strip`/`str.split` treat it for the ASCII range:
space, tab, newline, carriage return, vertical tab, form feed. -/
def pyWs (c : Char) : Bool :=
  c.toNat = 32 || c.toNat = 9 || c.toNat = 10 || c.toNat = 13 ||
  c.toNat = 11 || c.toNat = 12

/-- Python `not s or not s.strip()` — true exactly when the string is empty
or consists of whitespace only. -/
def pyBlank (s : String) : Bool := s.data.all pyWs

/-- Strip leading and trailing whitespace (Python `str.strip()`). -/
def pyStrip (l : List Char) : List Char :=
  ((l.dropWhile (fun c => pyWs c)).reverse.dropWhile (fun c => pyWs c)).reverse

/-- `str.lower` on one character, for the ASCII range (every string the
source lowercases and compares is ASCII). -/
def lowerChar (c : Char) : Char :=
  if 65 ≤ c.toNat ∧ c.toNat ≤ 90 then Char.ofNat (c.toNat + 32) else c

/-- `str.lower` (ASCII range). -/
def strLower (s : String) : String := ⟨s.data.map lowerChar⟩

/-- Whether `needle` occurs as a contiguous substring of `hay`
(Python `needle in hay`). -/
def containsSub (hay needle : List Char) : Bool :=
  match hay with
  | [] => needle.isEmpty
  | c :: t => needle.isPrefixOf (c :: t) || containsSub t needle

/-- Python `needle in hay` on strings. -/
def strContains (hay needle : String) : Bool := containsSub hay.data needle.data

/-! ## A small regular-expression engine

Exactly the constructs used by the patterns in `src/assistant/intents.py`:
literals, `\d`, `.`, concatenation, alternation `|`, greedy `?`, greedy `+`
(as `a · a*`), lazy `+?` (as `a · a*?`), and capturing groups `( )`.
Non-capturing groups `(?: )` are plain subexpressions. -/

inductive RE where
  /-- A literal run of characters. -/
  | lit (s : List Char)
  /-- The class `\d` (one ASCII digit — the source texts are ASCII). -/
  | dcls
  /-- The metacharacter `.` (any character except a newline). -/
  | dot
  /-- Concatenation. -/
  | seq (a b : RE)
  /-- Alternation `a|b`; the left branch is preferred. -/
  | alt (a b : RE)
  /-- Greedy option `a?`. -/
  | opt (a : RE)
  /-- Greedy star `a*` (only reached through `plus`). -/
  | star (a : RE)
  /-- Lazy star `a*?` (only reached through `plusLazy`). -/
  | starLazy (a : RE)
  /-- Capturing group number `n`. -/
  | grp (n : Nat) (a : RE)

/-- Greedy `a+` is `a · a*`. -/
def RE.plus (a : RE) : RE := .seq a (.star a)

/-- Lazy `a+?` is `a · a*?`. -/
def RE.plusLazy (a : RE) : RE := .seq a (.starLazy a)

/-- Captured groups: group number paired with the captured characters. -/
abbrev Caps := List (Nat × List Char)

/-- Structural size of an expression, used to pick an evaluation fuel. -/
def RE.size : RE → Nat
  | .lit _ => 1
  | .dcls => 1
  | .dot => 1
  | .seq a b => a.size + b.size + 1
  | .alt a b => a.size + b.size + 1
  | .opt a => a.size + 1
  | .star a => a.size + 1
  | .starLazy a => a.size + 1
  | .grp _ a => a.size + 1

/-- All ways the expression can match a prefix of the input, as
(remaining input, captures) pairs, in the backtracking preference order of
the `re` module (left alternative first, greedy repetition longest first,
lazy repetition shortest first).  The recursion is structural on `fuel`,
which bounds the call depth; every star unfolding is guarded to consume
input, so the fuel chosen in `matchHere` — which grows with both the
expression size and the input length — never runs out before the search
space is exhausted. -/
def mrun : Nat → RE → List Char → Caps → List (List Char × Caps)
  | 0, _, _, _ => []
  | fuel + 1, re, inp, caps =>
    match re with
    | .lit s => if s.isPrefixOf inp then [(inp.drop s.length, caps)] else []
    | .dcls =>
      match inp with
      | [] => []
      | c :: rest => if c.isDigit then [(rest, caps)] else []
    | .dot =>
      match inp with
      | [] => []
      | c :: rest => if c ≠ '\n' then [(rest, caps)] else []
    | .seq a b => (mrun fuel a inp caps).flatMap (fun r => mrun fuel b r.1 r.2)
    | .alt a b => mrun fuel a inp caps ++ mrun fuel b inp caps
    | .opt a => mrun fuel a inp caps ++ [(inp, caps)]
    | .star a =>
      ((mrun fuel a inp caps).filter (fun r => r.1.length < inp.length)).flatMap
        (fun r => mrun fuel (.star a) r.1 r.2) ++ [(inp, caps)]
    | .starLazy a =>
      (inp, caps) ::
      ((mrun fuel a inp caps).filter (fun r => r.1.length < inp.length)).flatMap
        (fun r => mrun fuel (.starLazy a) r.1 r.2)
    | .grp n a =>
      (mrun fuel a inp caps).map
        (fun r => (r.1, (n, inp.take (inp.length - r.1.length)) :: r.2))

/-- The preferred match of the expression at the very start of `inp`. -/
def matchHere (r : RE) (inp : List Char) : Option Caps :=
  match mrun ((inp.length + 2) * (r.size + 2)) r inp [] with
  | x :: _ => some x.2
  | [] => none

/-- `re.search` semantics: try successive start positions, leftmost first;
at the first position that matches, take the preferred match. -/
def searchFrom (r : RE) : List Char → Option Caps
  | [] => matchHere r []
  | c :: t =>
    match matchHere r (c :: t) with
    | some caps => some caps
    | none => searchFrom r t

/-- Whether `re.search(pattern, s)` finds a match. -/
def reTest (r : RE) (s : String) : Bool := (searchFrom r s.data).isSome

/-- `match.group(n)` of the found match. -/
def capGet (caps : Caps) (n : Nat) : Option (List Char) :=
  (caps.find? (fun p => p.1 = n)).map (fun p => p.2)

/-- Python `int` on a (nonempty) string of ASCII digits. -/
def natOfDigits (l : List Char) : Nat :=
  l.foldl (fun a c => a * 10 + (c.toNat - 48)) 0

/-- One pass of `re.findall(r"\d+", text)`: `cur` is the digit run in
progress, in reverse. -/
def digitRunsGo : List Char → List Char → List (List Char)
  | [], cur => if cur.isEmpty then [] else [cur.reverse]
  | c :: t, cur =>
    if c.isDigit then digitRunsGo t (c :: cur)
    else if cur.isEmpty then digitRunsGo t []
    else cur.reverse :: digitRunsGo t []

/-- `re.findall(r"\d+", text)`: the maximal runs of digits, left to right. -/
def digitRuns (l : List Char) : List (List Char) := digitRunsGo l []

/-- Shorthand for a literal-run expression. -/
def rlit (s : String) : RE := .lit s.data

/-- Concatenation of a list of expressions. -/
def rcat (l : List RE) : RE := l.foldr .seq (.lit [])

/-! ## Kernel-evaluable rational arithmetic

The library's `+` and `*` on `ℚ` are `@[irreducible]`, so terms built from
them cannot be evaluated by `decide` in witnesses and counterexamples.  The
embedding therefore spells rational constants as `mkRat n d` (the value
`n / d`) and sums/products with the wrappers below; `qadd_eq`, `qmul_eq`
and `qnat_eq` identify them with the standard operations. -/

/-- `a + b` on `ℚ`, in a form the kernel evaluates. -/
def qadd (a b : ℚ) : ℚ := mkRat (a.num * b.den + b.num * a.den) (a.den * b.den)

/-- `a * b` on `ℚ`, in a form the kernel evaluates. -/
def qmul (a b : ℚ) : ℚ := mkRat (a.num * b.num) (a.den * b.den)

/-- The natural number `n` as a rational, in a form the kernel evaluates. -/
def qnat (n : ℕ) : ℚ := mkRat n 1

/-! ## Data model of the intent system (`src/assistant/intents.py`) -/

/-- The `IntentType` enumeration. -/
inductive IntentType where
  | TIMER
  | WEATHER
  | TIME
  | TRANSLATION
  | GENERAL_CHAT
  | VISION
  | UNKNOWN
deriving DecidableEq, Repr

/-- A value stored in an `IntentResult.data` payload dictionary. -/
inductive PVal where
  | b (x : Bool)
  | i (x : Int)
  | s (x : String)
deriving DecidableEq, Repr

/-- The `data` payload: a small string-keyed dictionary. -/
abbrev Payload := List (String × PVal)

/-- Python truthiness of a payload value. -/
def PVal.truthy : PVal → Bool
  | .b x => x
  | .i x => x ≠ 0
  | .s x => x ≠ ""

/-- `data.get(key, False)` read as a boolean condition (`not data.get(...)`
in the source tests Python truthiness of the stored value). -/
def payloadGetBool (d : Payload) (key : String) : Bool :=
  match d.find? (fun p => p.1 = key) with
  | some p => p.2.truthy
  | none => false

/-- The `IntentResult` dataclass. -/
structure IntentResult where
  intent_type : IntentType
  confidence : ℚ
  response_text : String
  success : Bool := true
  error_message : Option String := none
  data : Option Payload := none
deriving DecidableEq, Repr

/-- An intent handler: the common shape of `TimerIntent`, `WeatherIntent`,
`TimeIntent` and `TranslationIntent` (keyword table, pattern table, and the
`handle` method; caught handler exceptions cannot occur in the embedding,
where every `handle` is total). -/
structure Intent where
  intent_type : IntentType
  keywords : List String
  patterns : List RE
  handle : String → IntentResult

/-- `Intent.matches`: the confidence score of a handler on an input text
(`intents.py` lines 69–85).  `+0.3` per keyword occurring in the lowercased
text (contribution capped at `0.7`), `+0.5` if any pattern matches, total
clamped to `1.0`.  The source counts hits over its keyword list; every
registered handler's list is duplicate-free, so this is the number of
distinct keywords occurring. -/
def Intent.matches (i : Intent) (user_text : String) : ℚ :=
  let text_lower := strLower user_text
  let keyword_matches := (i.keywords.filter (fun kw => strContains text_lower kw)).length
  let score : ℚ := if 0 < keyword_matches then min (qmul (qnat keyword_matches) (mkRat 3 10)) (mkRat 7 10) else 0
  let score : ℚ := if i.patterns.any (fun p => reTest p text_lower) then qadd score (mkRat 1 2) else score
  min score 1

/-! ## The timer handler (`TimerIntent`) -/

/-- The capturing alternation `(minute|second|hour)`. -/
def unitAlt : RE := .alt (rlit "minute") (.alt (rlit "second") (rlit "hour"))

/-- `set (?:a )?timer (?:for )?(\d+) ?(minute|second|hour)s?` -/
def timerPat1 : RE := rcat [rlit "set ", .opt (rlit "a "), rlit "timer ", .opt (rlit "for "),
  .grp 1 (RE.plus .dcls), .opt (rlit " "), .grp 2 unitAlt, .opt (rlit "s")]

/-- `(?:start|begin) (?:a )?(\d+) ?(minute|second|hour) timer` -/
def timerPat2 : RE := rcat [.alt (rlit "start") (rlit "begin"), rlit " ", .opt (rlit "a "),
  .grp 1 (RE.plus .dcls), .opt (rlit " "), .grp 2 unitAlt, rlit " timer"]

/-- `remind me in (\d+) ?(minute|second|hour)s?` -/
def timerPat3 : RE := rcat [rlit "remind me in ",
  .grp 1 (RE.plus .dcls), .opt (rlit " "), .grp 2 unitAlt, .opt (rlit "s")]

/-- `timer (?:for )?(\d+) ?(minute|second|hour)s?` -/
def timerPat4 : RE := rcat [rlit "timer ", .opt (rlit "for "),
  .grp 1 (RE.plus .dcls), .opt (rlit " "), .grp 2 unitAlt, .opt (rlit "s")]

/-- `wake me (?:up )?in (\d+) ?(minute|second|hour)s?` -/
def timerPat5 : RE := rcat [rlit "wake me ", .opt (rlit "up "), rlit "in ",
  .grp 1 (RE.plus .dcls), .opt (rlit " "), .grp 2 unitAlt, .opt (rlit "s")]

/-- `TimerIntent._get_patterns`. -/
def timerPatterns : List RE := [timerPat1, timerPat2, timerPat3, timerPat4, timerPat5]

/-- `TimerIntent._get_keywords`. -/
def timerKeywords : List String :=
  ["timer", "alarm", "remind", "set timer", "start timer",
   "minute", "second", "hour", "countdown", "wake me up"]

/-- The pattern loop of `TimerIntent._parse_duration` (lines 161–175): for
the first pattern that matches, read the amount (group 1) and unit (group 2);
`unit.startswith` on second/minute/hour picks the multiplier.  A pattern
whose groups give none of the three units falls through to the next
pattern, as the Python loop body does when no branch returns. -/
def parseDurationLoop : List RE → List Char → Option Nat
  | [], _ => none
  | p :: rest, text =>
    match searchFrom p text with
    | some caps =>
      match capGet caps 1, capGet caps 2 with
      | some g1, some g2 =>
        let amount := natOfDigits g1
        if ("second".data).isPrefixOf g2 then some amount
        else if ("minute".data).isPrefixOf g2 then some (amount * 60)
        else if ("hour".data).isPrefixOf g2 then some (amount * 3600)
        else parseDurationLoop rest text
      | _, _ => parseDurationLoop rest text
    | none => parseDurationLoop rest text

/-- `TimerIntent._parse_duration` (lines 159–188): the pattern loop, then
the bare-number fallback `re.findall(r"\d+", text)` with the unit guessed
from substring presence of "hour"/"second" (default minutes). -/
def parse_duration (text : List Char) : Option Nat :=
  match parseDurationLoop timerPatterns text with
  | some d => some d
  | none =>
    match digitRuns text with
    | [] => none
    | n :: _ =>
      let amount := natOfDigits n
      if containsSub text "hour".data then some (amount * 3600)
      else if containsSub text "second".data then some amount
      else some (amount * 60)

/-- `TimerIntent._format_duration` (lines 190–199). -/
def formatDuration (seconds : Nat) : String :=
  if seconds < 60 then
    toString seconds ++ " second" ++ (if seconds ≠ 1 then "s" else "")
  else if seconds < 3600 then
    let minutes := seconds / 60
    toString minutes ++ " minute" ++ (if minutes ≠ 1 then "s" else "")
  else
    let hours := seconds / 3600
    toString hours ++ " hour" ++ (if hours ≠ 1 then "s" else "")

/-- One entry of `TimerIntent.active_timers`: duration, end time
(`datetime.now() + timedelta(seconds=duration)`, as epoch seconds), and the
human-readable description. -/
structure TimerEntry where
  duration : Nat
  end_time : Nat
  description : String
deriving DecidableEq, Repr

/-- The wall-clock boundary: `time.time()` as epoch seconds, and the
`datetime.now()` components as `strftime` renders them (`%A` weekday name,
`%B` month name, `%d` zero-padded day, `%Y` year, `%I` zero-padded
12-hour, `%M` zero-padded minute, `%p` AM/PM, and `isoformat()`). -/
structure DateTimeParts where
  weekday : String
  monthName : String
  dayPad : String
  year : String
  hourPad : String
  minutePad : String
  ampm : String
  iso : String
deriving DecidableEq, Repr

/-- The external environment of one classification call: wall clock state. -/
structure Env where
  epochNow : Nat
  now : DateTimeParts
deriving DecidableEq, Repr

/-- `TimerIntent.handle` (lines 110–157), returning both the
`IntentResult` and the `active_timers` entry it creates
(`timer_id ↦ {duration, end_time, description}`); `none` when no timer was
created.  The fire-and-forget completion task (`asyncio.create_task`) has
no effect on the returned result and is not modelled. -/
def timerHandleFull (env : Env) (user_text : String) : IntentResult × Option (String × TimerEntry) :=
  let text_lower := strLower user_text
  match parse_duration text_lower.data with
  | none =>
    ({ intent_type := .TIMER, confidence := mkRat 8 10,
       response_text := "I couldn't understand the timer duration. Please say something like 'set a timer for 5 minutes'.",
       success := false }, none)
  | some duration_seconds =>
    let timer_id := "timer_" ++ toString env.epochNow
    let duration_text := formatDuration duration_seconds
    ({ intent_type := .TIMER, confidence := mkRat 9 10,
       response_text := "Timer set for " ++ duration_text ++ ". I'll let you know when it's done!",
       data := some [("timer_id", .s timer_id), ("duration", .i duration_seconds)] },
     some (timer_id, ⟨duration_seconds, env.epochNow + duration_seconds, duration_text⟩))

/-! ## The weather, time and translation handlers -/

/-- `WeatherIntent._get_keywords`. -/
def weatherKeywords : List String :=
  ["weather", "temperature", "rain", "sunny", "cloudy", "forecast",
   "hot", "cold", "warm", "cool", "humid", "windy", "storm"]

/-- `WeatherIntent._get_patterns` (`what'?s the weather`, `how'?s the
weather`, `weather (?:forecast|report|today|tomorrow)`,
`is it (?:raining|sunny|cloudy|hot|cold)`,
`temperature (?:today|outside|now)`). -/
def weatherPatterns : List RE :=
  [rcat [rlit "what", .opt (rlit "'"), rlit "s the weather"],
   rcat [rlit "how", .opt (rlit "'"), rlit "s the weather"],
   rcat [rlit "weather ",
     .alt (rlit "forecast") (.alt (rlit "report") (.alt (rlit "today") (rlit "tomorrow")))],
   rcat [rlit "is it ",
     .alt (rlit "raining") (.alt (rlit "sunny") (.alt (rlit "cloudy") (.alt (rlit "hot") (rlit "cold"))))],
   rcat [rlit "temperature ", .alt (rlit "today") (.alt (rlit "outside") (rlit "now"))]]

/-- `WeatherIntent.handle` (lines 232–255): a fixed offline explanation;
always succeeds. -/
def weatherHandle (_user_text : String) : IntentResult :=
  { intent_type := .WEATHER, confidence := mkRat 9 10,
    response_text := "I'm an offline assistant and don't have access to current weather data. For weather information, I recommend checking your phone's weather app or asking a connected assistant like Siri or Google Assistant.",
    data := some [("offline_response", .b true)] }

/-- `TimeIntent._get_keywords`. -/
def timeKeywords : List String :=
  ["time", "clock", "hour", "date", "today", "now",
   "what time", "current time", "o'clock"]

/-- `TimeIntent._get_patterns` (`what time is it`, `what'?s the time`,
`current time`, `what'?s today'?s date`, `what date is it`,
`tell me the time`). -/
def timePatterns : List RE :=
  [rlit "what time is it",
   rcat [rlit "what", .opt (rlit "'"), rlit "s the time"],
   rlit "current time",
   rcat [rlit "what", .opt (rlit "'"), rlit "s today", .opt (rlit "'"), rlit "s date"],
   rlit "what date is it",
   rlit "tell me the time"]

/-- `TimeIntent.handle` (lines 280–306): a date response when the lowered
text contains "date", otherwise the current time; `strftime` output comes
from the wall-clock boundary (`DateTimeParts`). -/
def timeHandle (env : Env) (user_text : String) : IntentResult :=
  let text_lower := strLower user_text
  let response :=
    if strContains text_lower "date" then
      "Today is " ++ env.now.weekday ++ ", " ++ env.now.monthName ++ " " ++
        env.now.dayPad ++ ", " ++ env.now.year
    else
      "It's currently " ++ env.now.hourPad ++ ":" ++ env.now.minutePad ++ " " ++ env.now.ampm
  { intent_type := .TIME, confidence := mkRat 9 10, response_text := response,
    data := some [("timestamp", .s env.now.iso)] }

/-- `TranslationIntent.translations`: the fixed glossary, in insertion
order. -/
def translationsTable : List (String × List (String × String)) :=
  [("hello", [("spanish", "hola"), ("french", "bonjour"), ("german", "hallo")]),
   ("goodbye", [("spanish", "adiós"), ("french", "au revoir"), ("german", "auf wiedersehen")]),
   ("thank you", [("spanish", "gracias"), ("french", "merci"), ("german", "danke")]),
   ("please", [("spanish", "por favor"), ("french", "s'il vous plaît"), ("german", "bitte")]),
   ("yes", [("spanish", "sí"), ("french", "oui"), ("german", "ja")]),
   ("no", [("spanish", "no"), ("french", "non"), ("german", "nein")]),
   ("water", [("spanish", "agua"), ("french", "eau"), ("german", "wasser")]),
   ("food", [("spanish", "comida"), ("french", "nourriture"), ("german", "essen")]),
   ("house", [("spanish", "casa"), ("french", "maison"), ("german", "haus")]),
   ("good", [("spanish", "bueno"), ("french", "bon"), ("german", "gut")])]

/-- `TranslationIntent._get_keywords`. -/
def translationKeywords : List String :=
  ["translate", "translation", "spanish", "french", "german",
   "how do you say", "in spanish", "in french", "in german"]

/-- The capturing alternation `(spanish|french|german)`. -/
def langAlt : RE := .alt (rlit "spanish") (.alt (rlit "french") (rlit "german"))

/-- `TranslationIntent._get_patterns`
(`translate (.+?) (?:to|into) (spanish|french|german)`,
`how do you say (.+?) in (spanish|french|german)`,
`what is (.+?) in (spanish|french|german)`,
`(.+?) in (spanish|french|german)`). -/
def translationPatterns : List RE :=
  [rcat [rlit "translate ", .grp 1 (RE.plusLazy .dot), rlit " ",
     .alt (rlit "to") (rlit "into"), rlit " ", .grp 2 langAlt],
   rcat [rlit "how do you say ", .grp 1 (RE.plusLazy .dot), rlit " in ", .grp 2 langAlt],
   rcat [rlit "what is ", .grp 1 (RE.plusLazy .dot), rlit " in ", .grp 2 langAlt],
   rcat [.grp 1 (RE.plusLazy .dot), rlit " in ", .grp 2 langAlt]]

/-- The extraction loop of `TranslationIntent.handle` (lines 351–356): the
first matching pattern yields `(group(1).strip(), group(2).strip())`. -/
def translationExtract : List RE → List Char → Option (String × String)
  | [], _ => none
  | p :: rest, text =>
    match searchFrom p text with
    | some caps =>
      match capGet caps 1, capGet caps 2 with
      | some g1, some g2 => some (⟨pyStrip g1⟩, ⟨pyStrip g2⟩)
      | _, _ => translationExtract rest text
    | none => translationExtract rest text

/-- Association-list lookup, as Python dict indexing by key. -/
def assocLookup (l : List (String × α)) (key : String) : Option α :=
  match l.find? (fun p => p.1 = key) with
  | some p => some p.2
  | none => none

/-- `TranslationIntent.handle` (lines 342–392). -/
def translationHandle (user_text : String) : IntentResult :=
  let text_lower := strLower user_text
  match translationExtract translationPatterns text_lower.data with
  | none =>
    { intent_type := .TRANSLATION, confidence := mkRat 8 10,
      response_text := "I couldn't understand what you want to translate. Try asking 'How do you say hello in Spanish?'",
      success := false }
  | some (word_to_translate, target_language) =>
    if word_to_translate = "" ∨ target_language = "" then
      { intent_type := .TRANSLATION, confidence := mkRat 8 10,
        response_text := "I couldn't understand what you want to translate. Try asking 'How do you say hello in Spanish?'",
        success := false }
    else
      let response :=
        match assocLookup translationsTable word_to_translate with
        | some langs =>
          match assocLookup langs target_language with
          | some translation =>
            "'" ++ word_to_translate ++ "' in " ++ target_language ++ " is '" ++ translation ++ "'"
          | none =>
            "I don't know how to say '" ++ word_to_translate ++ "' in " ++ target_language ++
              ". I can translate to Spanish, French, or German."
        | none =>
          "I don't know how to translate '" ++ word_to_translate ++
            "'. I can translate these words: " ++
            String.intercalate ", " (translationsTable.map (fun p => p.1))
      { intent_type := .TRANSLATION, confidence := mkRat 9 10, response_text := response,
        data := some [("word", .s word_to_translate), ("language", .s target_language)] }

/-! ## The intent manager (`IntentManager`) -/

/-- The registered handlers, in registration order
(`IntentManager.__init__`, lines 398–407). -/
def timerIntent (env : Env) : Intent :=
  ⟨.TIMER, timerKeywords, timerPatterns, fun t => (timerHandleFull env t).1⟩

/-- The weather handler as a registered `Intent`. -/
def weatherIntent : Intent := ⟨.WEATHER, weatherKeywords, weatherPatterns, weatherHandle⟩

/-- The time handler as a registered `Intent`. -/
def timeIntent (env : Env) : Intent := ⟨.TIME, timeKeywords, timePatterns, timeHandle env⟩

/-- The translation handler as a registered `Intent`. -/
def translationIntent : Intent :=
  ⟨.TRANSLATION, translationKeywords, translationPatterns, translationHandle⟩

/-- `IntentManager.intents`. -/
def intents (env : Env) : List Intent :=
  [timerIntent env, weatherIntent, timeIntent env, translationIntent]

/-- The fixed vocabulary of `IntentManager._is_vision_request`
(lines 475–480). -/
def visionKeywords : List String :=
  ["what do you see", "what can you see", "describe what you see",
   "look around", "tell me what you see", "what's in front",
   "describe the scene", "what's there", "look at", "vision",
   "camera", "image", "picture", "see anything"]

/-- `IntentManager._is_vision_request` (lines 469–482). -/
def is_vision_request (text : String) : Bool :=
  if text = "" then false
  else visionKeywords.any (fun kw => strContains (strLower text) kw)

/-- The selection loop of `classify_and_handle` (lines 429–436): fold over
the registered handlers keeping the best (strictly higher beats, so the
first handler attaining the maximum wins ties), starting from
`(None, 0.0)`. -/
def findBest (is : List Intent) (text : String) : Option Intent × ℚ :=
  is.foldl
    (fun acc i =>
      let confidence := i.matches text
      if acc.2 < confidence then (some i, confidence) else acc)
    (none, 0)

/-- The `GENERAL_CHAT` fallback result of `classify_and_handle`
(lines 462–467). -/
def generalChatFallback : IntentResult :=
  { intent_type := .GENERAL_CHAT, confidence := mkRat 1 2,
    response_text := "Let me think about that.",
    data := some [("delegate_to_llm", .b true)] }

/-- `IntentManager.classify_and_handle` (lines 409–467).  The usage
counters (`intent_stats`) affect no claim and are omitted; the
`try/except` around `handle` is dead in the embedding, where `handle` is
total. -/
def classify_and_handle (env : Env) (user_text : String) : IntentResult :=
  if pyBlank user_text then
    { intent_type := .UNKNOWN, confidence := 0,
      response_text := "I didn't hear anything. Could you please repeat that?",
      success := false }
  else if is_vision_request user_text then
    { intent_type := .VISION, confidence := mkRat 9 10,
      response_text := "Vision request detected - delegating to vision system",
      data := some [("delegate_to_vision", .b true)] }
  else
    match findBest (intents env) user_text with
    | (some best_intent, best_confidence) =>
      if mkRat 3 10 < best_confidence then best_intent.handle user_text
      else generalChatFallback
    | (none, _) => generalChatFallback

/-! ## The conversation turn executor (`src/assistant/pipeline.py`) -/

/-- `PipelineMode`. -/
inductive PipelineMode where
  | hardware
  | simulation
  | text_only
deriving DecidableEq, Repr

/-- The `ConversationTurn` dataclass.  The wall-clock stage timings
(`stt_time`, `llm_time`, `tts_time`, `total_time`) and the audio-file
references affect no claim and are omitted from the embedding. -/
structure ConversationTurn where
  user_text : Option String := none
  assistant_text : Option String := none
  success : Bool := false
  error_message : Option String := none
deriving DecidableEq, Repr

/-- The external collaborators of one `process_voice_input` call, plus the
`INTENTS_AVAILABLE` import flag: the hardware speech-to-text result, the
generative model (`llm_engine.generate`, `None`/empty on failure), and the
hardware `espeak` exit status. -/
structure PipelineEnv where
  intentsAvailable : Bool
  intentEnv : Env
  sttText : Option String
  llmGenerate : String → Option String
  ttsHardwareOk : String → Bool

/-- The mutable pipeline state: the initialization flag and the append-only
conversation history. -/
structure PipelineState where
  is_initialized : Bool
  conversation_history : List ConversationTurn

/-- The default simulated input of `process_voice_input` (line 139). -/
def defaultSimulatedText : String := "Hello Pi-Jarvis, how are you today?"

/-- `SpeechPipeline._build_conversation_prompt` (lines 233–245). -/
def build_conversation_prompt (user_input : String) : String :=
  "User: " ++ user_input ++ "\nAssistant:"

/-- Step 1 of `process_voice_input` (lines 129–143): acquire the
utterance.  In simulation mode Python's `simulate_text or default` makes
any falsy value (absent or empty) fall back to the default greeting. -/
def acquireUserText (mode : PipelineMode) (penv : PipelineEnv)
    (simulate_text : Option String) : Option String :=
  match mode with
  | .hardware => penv.sttText
  | .simulation =>
    match simulate_text with
    | some s => if s = "" then some defaultSimulatedText else some s
    | none => some defaultSimulatedText
  | .text_only => simulate_text

/-- `SpeechPipeline._text_to_speech` (lines 247–280): only the hardware
strategy can fail; simulation and text-only always succeed. -/
def text_to_speech (mode : PipelineMode) (penv : PipelineEnv) (text : String) : Bool :=
  match mode with
  | .hardware => penv.ttsHardwareOk text
  | .simulation => true
  | .text_only => true

/-- Where Step 2 of `process_voice_input` sends the classifier result. -/
inductive Route where
  /-- The classifier's `response_text` is taken as `assistant_text`. -/
  | direct (t : String)
  /-- The vision-delegation branch (lines 169–173). -/
  | vision
  /-- The generative fallback (lines 175–179). -/
  | generative
  /-- The `AttributeError` raised by `data.get` on `None` in the first
  condition (caught by the outer handler at line 227).  Unreachable for
  results of `classify_and_handle`, which never returns `success=True`
  with `data=None`. -/
  | exn
deriving DecidableEq, Repr

/-- The branch structure of Step 2 (lines 164–179), with Python
short-circuit evaluation: the first condition
`success and not data.get("delegate_to_llm") and not data.get("delegate_to_vision")`
only touches `data` when `success` is truthy (raising on `None`); the
second condition `data and data.get("delegate_to_vision")` guards `data`
with its own truthiness (an empty dict is falsy). -/
def routeIntentResult (r : IntentResult) : Route :=
  match r.success, r.data with
  | true, none => .exn
  | true, some d =>
    if !(payloadGetBool d "delegate_to_llm") && !(payloadGetBool d "delegate_to_vision") then
      .direct r.response_text
    else if !d.isEmpty && payloadGetBool d "delegate_to_vision" then .vision
    else .generative
  | false, some d =>
    if !d.isEmpty && payloadGetBool d "delegate_to_vision" then .vision
    else .generative
  | false, none => .generative

/-- The fixed text assigned on the vision-delegation branch
(`pipeline.py` line 173). -/
def visionPlaceholderText : String :=
  "Let me take a look around... I can see various objects in the scene."

/-- The caught-exception message of the unreachable `Route.exn` branch
(`str(e)` of the `AttributeError`). -/
def noneGetAttributeMsg : String :=
  "'NoneType' object has no attribute 'get'"

/-- Step 2 of `process_voice_input` (lines 154–184): the text that becomes
`turn.assistant_text`, or `Except.error` for the caught exception. -/
def respondText (penv : PipelineEnv) (user_text : String) : Except Unit (Option String) :=
  if penv.intentsAvailable then
    match routeIntentResult (classify_and_handle penv.intentEnv user_text) with
    | .direct t => .ok (some t)
    | .vision => .ok (some visionPlaceholderText)
    | .generative => .ok (penv.llmGenerate (build_conversation_prompt user_text))
    | .exn => .error ()
  else
    .ok (penv.llmGenerate (build_conversation_prompt user_text))

/-- `SpeechPipeline.process_voice_input` (lines 109–231): one conversation
turn, returning the turn and the updated pipeline state.  The turn is
appended to the history only on full success (line 216). -/
def process_voice_input (mode : PipelineMode) (penv : PipelineEnv)
    (st : PipelineState) (simulate_text : Option String) :
    ConversationTurn × PipelineState :=
  if !st.is_initialized then
    ({ success := false, error_message := some "Pipeline not initialized" }, st)
  else
    match acquireUserText mode penv simulate_text with
    | none =>
      ({ user_text := none,
         error_message := some "No speech detected or transcription failed" }, st)
    | some user_text =>
      if pyBlank user_text then
        ({ user_text := some user_text,
           error_message := some "No speech detected or transcription failed" }, st)
      else
        match respondText penv user_text with
        | .error () =>
          ({ user_text := some user_text,
             error_message := some noneGetAttributeMsg }, st)
        | .ok none =>
          ({ user_text := some user_text, assistant_text := none,
             error_message := some "No response generated" }, st)
        | .ok (some assistant_text) =>
          if pyBlank assistant_text then
            ({ user_text := some user_text, assistant_text := some assistant_text,
               error_message := some "No response generated" }, st)
          else if !(text_to_speech mode penv assistant_text) then
            ({ user_text := some user_text, assistant_text := some assistant_text,
               error_message := some "Text-to-speech failed" }, st)
          else
            let turn : ConversationTurn :=
              { user_text := some user_text, assistant_text := some assistant_text,
                success := true }
            (turn, { st with conversation_history := st.conversation_history ++ [turn] })

/-- A sequence of `process_voice_input` calls, threading the state. -/
def runPipeline (mode : PipelineMode) (penv : PipelineEnv) :
    PipelineState → List (Option String) → PipelineState
  | st, [] => st
  | st, x :: xs => runPipeline mode penv (process_voice_input mode penv st x).2 xs

/-- The `success_rate` field of `SpeechPipeline.get_performance_stats`
(lines 340–366): `None` stands for the error dictionaries returned when
the history is empty or holds no successful turn. -/
def performance_success_rate (st : PipelineState) : Option ℚ :=
  if st.conversation_history.isEmpty then none
  else
    let successful := st.conversation_history.filter (fun t => t.success)
    if successful.isEmpty then none
    else some ((successful.length : ℚ) / (st.conversation_history.length : ℚ) * 100)

/-! ## The wake-word gate (`src/assistant/hotword.py`, `src/assistant/parvis.py`)

The gate and its callback run on one cooperative scheduler: the polling
loop (`ParvisHotwordDetector.start_listening`) awaits the wake-word
callback (`ParvisAssistant._on_parvis_detected`) inline, the callback
stops listening, runs the conversation, and then — still inside the
callback — awaits a nested `start_listening` to resume polling.  The model
below is a labelled transition system over the control location of the
active (innermost) frame, the two flags, and the number of callback
invocations currently on the stack.  Steps are atomic between suspension
points of the event loop; in particular wake-word detection and the
callback's first statement `stop_listening()` (between which the source
has no `await`) form one step. -/

/-- Control location of the innermost active frame. -/
inductive GatePhase where
  /-- No polling loop is running (before `start`, or after the outermost
  loop exited). -/
  | idle
  /-- A polling-loop instance is at its `while self.is_listening` check
  (`hotword.py` line 146). -/
  | loopHead
  /-- Reading and processing one audio frame (`hotword.py` lines 149–169):
  the gate is polling. -/
  | inFrame
  /-- The wake-word callback is running the conversation turn
  (`parvis.py` lines 111–114). -/
  | inConvo
deriving DecidableEq, Repr

/-- The observable state of the wake-word gate. -/
structure GateState where
  /-- `ParvisHotwordDetector.is_listening`. -/
  is_listening : Bool
  /-- `ParvisAssistant.is_running`. -/
  is_running : Bool
  /-- Number of `_on_parvis_detected` invocations on the stack. -/
  depth : Nat
  phase : GatePhase
deriving DecidableEq, Repr

/-- The initial state: assistant not started. -/
def gateInit : GateState := ⟨false, false, 0, .idle⟩

/-- One step of the gate, labelled by the source location it models. -/
inductive GateStep : GateState → GateState → Prop where
  /-- `ParvisAssistant.start` → `start_listening`: `is_running := True`,
  `is_listening := True`, enter the loop (`parvis.py` 238–254,
  `hotword.py` 136–146). -/
  | start (s : GateState) : s.phase = .idle → s.depth = 0 →
      GateStep s ⟨true, true, 0, .loopHead⟩
  /-- The `while` condition is true: read and process a frame
  (`hotword.py` 146–156). -/
  | pollEnter (s : GateState) : s.phase = .loopHead → s.is_listening = true →
      GateStep s { s with phase := .inFrame }
  /-- Frame processed without a detection: sleep, back to the condition
  (`hotword.py` 156–169). -/
  | pollNoWake (s : GateState) : s.phase = .inFrame →
      GateStep s { s with phase := .loopHead }
  /-- Wake word detected: the callback is invoked and its first statement
  stops listening — no suspension point lies between (`hotword.py`
  158–164, `parvis.py` 105–111). -/
  | wake (s : GateState) : s.phase = .inFrame →
      GateStep s { s with is_listening := false, depth := s.depth + 1, phase := .inConvo }
  /-- Conversation finished normally while the assistant runs: the
  callback resumes polling through a nested `start_listening`
  (`parvis.py` 114–119). -/
  | convoDone (s : GateState) : s.phase = .inConvo → s.is_running = true →
      GateStep s { s with is_listening := true, phase := .loopHead }
  /-- Conversation raised: the `except` branch also restarts listening
  (`parvis.py` 121–125). -/
  | convoErr (s : GateState) : s.phase = .inConvo → s.is_running = true →
      GateStep s { s with is_listening := true, phase := .loopHead }
  /-- Conversation finished while `is_running` is false: the callback
  returns without restarting and the invoking loop resumes at its
  condition (`parvis.py` 117, `hotword.py` 164–169). -/
  | convoNoRestart (s : GateState) : s.phase = .inConvo → s.is_running = false →
      GateStep s { s with depth := s.depth - 1, phase := .loopHead }
  /-- The `while` condition is false in a nested loop: the loop exits, the
  callback that awaited it returns, and the outer loop resumes at its own
  condition (`hotword.py` 146 and 177, 164–169). -/
  | loopExitNested (s : GateState) (d : Nat) : s.phase = .loopHead →
      s.is_listening = false → s.depth = d + 1 →
      GateStep s { s with depth := d, phase := .loopHead }
  /-- The `while` condition is false at the outermost loop:
  `start_listening` returns to `ParvisAssistant.start` (`hotword.py` 146
  and 177). -/
  | loopExitTop (s : GateState) : s.phase = .loopHead → s.is_listening = false →
      s.depth = 0 → GateStep s { s with phase := .idle }
  /-- `ParvisAssistant.stop` / `cleanup`: clears both flags
  (`parvis.py` 263–277, `hotword.py` 180–183). -/
  | stopAll (s : GateState) :
      GateStep s { s with is_running := false, is_listening := false }

/-- Reachability from the initial state. -/
inductive GateReach : GateState → Prop where
  | init : GateReach gateInit
  | step {s s' : GateState} : GateReach s → GateStep s s' → GateReach s'

/-! ## The detection formatter (`src/vision/detector.py`) -/

/-- The `DetectionResult` class: class name, confidence, bounding box,
class id. -/
structure DetectionResult where
  class_name : String
  confidence : ℚ
  bbox : ℤ × ℤ × ℤ × ℤ
  class_id : ℤ := -1
deriving DecidableEq, Repr

/-- One iteration of the grouping loop (lines 325–331): increment the
count of `name`, inserting it at the end on first occurrence — the
insertion order of a Python dict. -/
def bumpCount : List (String × Nat) → String → List (String × Nat)
  | [], name => [(name, 1)]
  | (k, v) :: t, name =>
    if k = name then (k, v + 1) :: t else (k, v) :: bumpCount t name

/-- The `object_counts` dictionary (lines 324–331), in insertion order. -/
def objectCounts (detections : List DetectionResult) : List (String × Nat) :=
  detections.foldl (fun acc d => bumpCount acc d.class_name) []

/-- Round half to even, as Python `format` rounds (the source formats
`confidence` with `.0%`).  Computed on the numerator and denominator with
integer arithmetic: `f` is the floor of `q` and `r` the remainder, so `q`
rounds down when `r/d < 1/2`, up when `r/d > 1/2`, and to the even
neighbour at exactly one half. -/
def roundHalfEven (q : ℚ) : ℤ :=
  let d : ℤ := (q.den : ℤ)
  let f : ℤ := Int.fdiv q.num d
  let r : ℤ := q.num - f * d
  if 2 * r < d then f
  else if d < 2 * r then f + 1
  else if f % 2 = 0 then f else f + 1

/-- `f"{confidence:.0%}"`. -/
def fmtPercent (confidence : ℚ) : String :=
  toString (roundHalfEven (qmul confidence (mkRat 100 1))) ++ "%"

/-- One list item of the multi-class description (lines 342–347). -/
def itemPhrase (p : String × Nat) : String :=
  if p.2 = 1 then "a " ++ p.1 else toString p.2 ++ " " ++ p.1 ++ "s"

/-- `format_detections_for_speech` (lines 308–352).  The empty and
singleton input cases are the source's `if not detections` and
`len(detections) == 1` checks; the `[(name, count)]` and `[x, y]` match
arms are its `len(object_counts) == 1` and `len(items) == 2` checks.  The
last arm's list accesses (`items[:-1]`, `items[-1]`) are total here
(defaulting on empty), where the source would raise; that arm is only
reached with at least three items. -/
def format_detections_for_speech (detections : List DetectionResult) : String :=
  match detections with
  | [] => "I don't see any recognizable objects in the image."
  | [detection] =>
    "I can see a " ++ detection.class_name ++ " with " ++
      fmtPercent detection.confidence ++ " confidence."
  | _ =>
    match objectCounts detections with
    | [(name, count)] =>
      if count = 1 then "I can see a " ++ name ++ "."
      else "I can see " ++ toString count ++ " " ++ name ++ "s."
    | oc =>
      let items := oc.map itemPhrase
      match items with
      | [x, y] => "I can see " ++ x ++ " and " ++ y ++ "."
      | _ =>
        "I can see " ++ String.intercalate ", " items.dropLast ++
          ", and " ++ items.getLastD "" ++ "."

/-! ## Derived definitions used in the claim statements -/

/-- Whether a classifier result carries the `delegate_to_vision`
payload flag. -/
def resultVisionFlag (r : IntentResult) : Bool :=
  match r.data with
  | some d => payloadGetBool d "delegate_to_vision"
  | none => false

/-- Whether a classifier result carries the `delegate_to_llm`
payload flag. -/
def resultLLMFlag (r : IntentResult) : Bool :=
  match r.data with
  | some d => payloadGetBool d "delegate_to_llm"
  | none => false

/-- One step of the handler-selection fold of `classify_and_handle`. -/
def stepBest (text : String) (acc : Option Intent × ℚ) (i : Intent) : Option Intent × ℚ :=
  if acc.2 < i.matches text then (some i, i.matches text) else acc

/-- The running maximum of the handlers' scores, from a start value. -/
def maxScoreFrom (text : String) (c : ℚ) (is : List Intent) : ℚ :=
  is.foldl (fun a i => max a (i.matches text)) c

/-- The maximum score any registered handler gives the text. -/
def scoreMax (is : List Intent) (text : String) : ℚ := maxScoreFrom text 0 is

/-- Total of the counts of a grouped detection list. -/
def countSum (l : List (String × Nat)) : Nat := (l.map (fun p => p.2)).sum

/-- A concrete wall-clock reading, for witnesses. -/
def dtp0 : DateTimeParts :=
  ⟨"Monday", "January", "05", "2026", "10", "30", "AM", "2026-01-05T10:30:00"⟩

/-- A concrete classification environment, for witnesses. -/
def env0 : Env := ⟨1000, dtp0⟩

/-- A concrete pipeline environment, for witnesses: intent system present,
hardware STT hears "hello there", the generative model echoes its prompt,
hardware TTS succeeds. -/
def penv0 : PipelineEnv :=
  ⟨true, env0, some "hello there", fun p => some ("[generated] " ++ p), fun _ => true⟩

/-- `penv0` with failing hardware text-to-speech. -/
def penvTTSFail : PipelineEnv := { penv0 with ttsHardwareOk := fun _ => false }

/-- An initialized pipeline with empty history. -/
def st0 : PipelineState := ⟨true, []⟩

/-! ## Helper lemmas: the rational-arithmetic wrappers -/

theorem qadd_eq (a b : ℚ) : qadd a b = a + b := (Rat.add_def' a b).symm

theorem qmul_eq (a b : ℚ) : qmul a b = a * b := by
  rw [Rat.mul_def, Rat.normalize_eq_mkRat]
  rfl

theorem qnat_eq (n : ℕ) : qnat n = (n : ℚ) := by
  unfold qnat
  rw [Rat.mkRat_one]
  simp

theorem mkRat_eq_div (n : ℤ) (d : ℕ) : mkRat n d = (n : ℚ) / (d : ℚ) := by
  rw [Rat.mkRat_eq_divInt, Rat.divInt_eq_div]
  norm_num

theorem mkRat_1_2 : mkRat 1 2 = (1 : ℚ)/2 := by rw [mkRat_eq_div]; norm_num

theorem mkRat_3_10 : mkRat 3 10 = (3 : ℚ)/10 := by rw [mkRat_eq_div]; norm_num

theorem mkRat_7_10 : mkRat 7 10 = (7 : ℚ)/10 := by rw [mkRat_eq_div]; norm_num

theorem mkRat_8_10 : mkRat 8 10 = (8 : ℚ)/10 := by rw [mkRat_eq_div]; norm_num

theorem mkRat_9_10 : mkRat 9 10 = (9 : ℚ)/10 := by rw [mkRat_eq_div]; norm_num

/-! ## Helper lemmas: strings and the vision pre-check -/

theorem isPrefixOf_subset {l₁ l₂ : List Char} (h : l₁.isPrefixOf l₂ = true) :
    ∀ c ∈ l₁, c ∈ l₂ := by
  rw [List.isPrefixOf_iff_prefix] at h
  exact fun c hc => h.sublist.subset hc

theorem containsSub_subset {hay needle : List Char} (h : containsSub hay needle = true) :
    ∀ c ∈ needle, c ∈ hay := by
  induction hay with
  | nil =>
    unfold containsSub at h
    simp only [List.isEmpty_iff] at h
    subst h
    intro c hc
    simp at hc
  | cons a t ih =>
    unfold containsSub at h
    rw [Bool.or_eq_true] at h
    rcases h with h | h
    · exact isPrefixOf_subset h
    · exact fun c hc => List.mem_cons_of_mem a (ih h c hc)

theorem lowerChar_of_ws {c : Char} (h : pyWs c = true) : lowerChar c = c := by
  have h' : ((((c.toNat = 32 ∨ c.toNat = 9) ∨ c.toNat = 10) ∨ c.toNat = 13) ∨
      c.toNat = 11) ∨ c.toNat = 12 := by
    simpa [pyWs] using h
  unfold lowerChar
  rw [if_neg]
  omega

theorem strLower_of_blank {s : String} (h : pyBlank s = true) :
    (strLower s).data = s.data := by
  have h' : ∀ c ∈ s.data, pyWs c = true := by
    simpa [pyBlank, List.all_eq_true] using h
  show s.data.map lowerChar = s.data
  calc s.data.map lowerChar = s.data.map id :=
        List.map_congr_left (fun c hc => lowerChar_of_ws (h' c hc))
    _ = s.data := List.map_id s.data

theorem visionKeywords_have_ink :
    ∀ kw ∈ visionKeywords, ∃ c ∈ kw.data, pyWs c = false := by decide

theorem vision_request_not_blank {t : String} (h : is_vision_request t = true) :
    pyBlank t = false := by
  cases hb : pyBlank t with
  | false => rfl
  | true =>
    exfalso
    unfold is_vision_request at h
    split at h
    · simp at h
    · rw [List.any_eq_true] at h
      obtain ⟨kw, hkw, hc⟩ := h
      unfold strContains at hc
      have hsub := containsSub_subset hc
      obtain ⟨c, hck, hcw⟩ := visionKeywords_have_ink kw hkw
      have hmem : c ∈ (strLower t).data := hsub c hck
      rw [strLower_of_blank hb] at hmem
      have hws : ∀ c ∈ t.data, pyWs c = true := by
        simpa [pyBlank, List.all_eq_true] using hb
      rw [hws c hmem] at hcw
      simp at hcw

/-! ## Claim theorems -/

/-- C3: every input containing one of the fixed vision-indicating phrases
makes `classify_and_handle` return the Vision short-circuit result — kind
Vision, confidence 0.9, payload `delegate_to_vision = true` — without
consulting any handler: the result is a fixed constant, independent of
every handler score. -/
theorem C3_vision_shortcircuit (env : Env) (text : String)
    (h : is_vision_request text = true) :
    classify_and_handle env text =
      { intent_type := .VISION, confidence := 9/10,
        response_text := "Vision request detected - delegating to vision system",
        data := some [("delegate_to_vision", PVal.b true)] } := by
  unfold classify_and_handle
  rw [vision_request_not_blank h]
  simp [h, mkRat_9_10]

/-- Witness for C3 at the concrete input "what do you see". -/
theorem C3_witness :
    is_vision_request "what do you see" = true ∧
    classify_and_handle env0 "what do you see" =
      { intent_type := .VISION, confidence := 9/10,
        response_text := "Vision request detected - delegating to vision system",
        data := some [("delegate_to_vision", PVal.b true)] } :=
  ⟨by decide, C3_vision_shortcircuit env0 "what do you see" (by decide)⟩

/-- C5: for every handler and every text, `Intent.matches` equals
`min 1 (base + bonus)` with `base = min (0.3 · keyword hits) 0.7` when at
least one keyword occurs (else 0) and `bonus = 0.5` exactly when some
pattern matches the lowercased text; the result lies in `[0, 1]`. -/
theorem C5_matches_formula (i : Intent) (text : String) :
    (i.matches text =
      min 1
        ((if 0 < (i.keywords.filter (fun kw => strContains (strLower text) kw)).length then
            min (((i.keywords.filter (fun kw => strContains (strLower text) kw)).length : ℚ) * (3/10)) (7/10)
          else 0) +
         (if i.patterns.any (fun p => reTest p (strLower text)) then 1/2 else 0))) ∧
    0 ≤ i.matches text ∧ i.matches text ≤ 1 := by
  have hbase : (0:ℚ) ≤ (if 0 < (i.keywords.filter (fun kw => strContains (strLower text) kw)).length then
      min (((i.keywords.filter (fun kw => strContains (strLower text) kw)).length : ℚ) * (3/10)) (7/10)
    else 0) := by
    split
    · exact le_min (by positivity) (by norm_num)
    · exact le_refl 0
  have hmatches : i.matches text =
      min ((if 0 < (i.keywords.filter (fun kw => strContains (strLower text) kw)).length then
          min (((i.keywords.filter (fun kw => strContains (strLower text) kw)).length : ℚ) * (3/10)) (7/10)
        else 0) +
        (if i.patterns.any (fun p => reTest p (strLower text)) then 1/2 else 0)) 1 := by
    unfold Intent.matches
    by_cases hp : (i.patterns.any fun p => reTest p (strLower text)) = true
    · simp only [hp, if_true, qadd_eq, qmul_eq, qnat_eq, mkRat_3_10, mkRat_7_10, mkRat_1_2]
    · simp only [Bool.not_eq_true] at hp
      simp only [hp, Bool.false_eq_true, if_false, qmul_eq, qnat_eq, mkRat_3_10, mkRat_7_10]
      rw [add_zero]
  have hbonus : (0:ℚ) ≤ (if (i.patterns.any fun p => reTest p (strLower text)) = true then (1:ℚ)/2 else 0) := by
    split
    · norm_num
    · exact le_refl 0
  rw [hmatches]
  exact ⟨min_comm _ _, le_min (by linarith) (by norm_num), min_le_right _ _⟩

/-! ## Helper lemmas: the handler-selection fold -/

theorem findBest_eq_fold (is : List Intent) (text : String) :
    findBest is text = is.foldl (stepBest text) (none, 0) := rfl

theorem stepBest_pos {text : String} {b : Option Intent} {c : ℚ} {i : Intent}
    (h : c < i.matches text) : stepBest text (b, c) i = (some i, i.matches text) := by
  unfold stepBest
  rw [if_pos h]

theorem stepBest_neg {text : String} {b : Option Intent} {c : ℚ} {i : Intent}
    (h : ¬ c < i.matches text) : stepBest text (b, c) i = (b, c) := by
  unfold stepBest
  rw [if_neg h]

theorem maxScoreFrom_cons (text : String) (c : ℚ) (i : Intent) (is : List Intent) :
    maxScoreFrom text c (i :: is) = maxScoreFrom text (max c (i.matches text)) is := rfl

theorem foldBest_snd (text : String) (is : List Intent) :
    ∀ (b : Option Intent) (c : ℚ),
      (is.foldl (stepBest text) (b, c)).2 = maxScoreFrom text c is := by
  induction is with
  | nil => intro b c; rfl
  | cons i rest ih =>
    intro b c
    rw [List.foldl_cons, maxScoreFrom_cons]
    by_cases hc : c < i.matches text
    · rw [stepBest_pos hc, max_eq_right hc.le]
      exact ih (some i) (i.matches text)
    · rw [stepBest_neg hc, max_eq_left (not_lt.mp hc)]
      exact ih b c

theorem le_maxScoreFrom (text : String) (is : List Intent) :
    ∀ c : ℚ, c ≤ maxScoreFrom text c is := by
  induction is with
  | nil => intro c; exact le_refl c
  | cons i rest ih =>
    intro c
    rw [maxScoreFrom_cons]
    exact le_trans (le_max_left c (i.matches text)) (ih (max c (i.matches text)))

theorem maxScoreFrom_attained (text : String) (is : List Intent) :
    ∀ c : ℚ, c < maxScoreFrom text c is →
      ∃ i ∈ is, i.matches text = maxScoreFrom text c is := by
  induction is with
  | nil => intro c hc; exact absurd hc (lt_irrefl c)
  | cons i rest ih =>
    intro c hc
    rw [maxScoreFrom_cons] at hc ⊢
    by_cases h2 : max c (i.matches text) < maxScoreFrom text (max c (i.matches text)) rest
    · obtain ⟨j, hj, hje⟩ := ih (max c (i.matches text)) h2
      exact ⟨j, List.mem_cons_of_mem i hj, hje⟩
    · have heq : maxScoreFrom text (max c (i.matches text)) rest = max c (i.matches text) :=
        le_antisymm (not_lt.mp h2) (le_maxScoreFrom text rest _)
      have him : max c (i.matches text) = i.matches text := by
        rcases max_cases c (i.matches text) with ⟨h, _⟩ | ⟨h, _⟩
        · rw [heq, h] at hc
          exact absurd hc (lt_irrefl c)
        · exact h
      exact ⟨i, List.mem_cons_self i rest, by rw [heq, him]⟩

theorem foldBest_fst_of_max_le (text : String) (is : List Intent) :
    ∀ (b : Option Intent) (c : ℚ), ¬ c < maxScoreFrom text c is →
      (is.foldl (stepBest text) (b, c)).1 = b := by
  induction is with
  | nil => intro b c _; rfl
  | cons i rest ih =>
    intro b c hc
    rw [maxScoreFrom_cons] at hc
    have hle : max c (i.matches text) ≤ maxScoreFrom text (max c (i.matches text)) rest :=
      le_maxScoreFrom text rest _
    have hic : ¬ c < i.matches text := by
      intro hlt
      exact hc (lt_of_lt_of_le (lt_of_lt_of_le hlt (le_max_right c _)) hle)
    rw [List.foldl_cons, stepBest_neg hic]
    apply ih
    rw [max_eq_left (not_lt.mp hic)] at hc
    exact hc

theorem foldBest_fst_of_lt (text : String) (is : List Intent) :
    ∀ (b : Option Intent) (c : ℚ), c < maxScoreFrom text c is →
      (is.foldl (stepBest text) (b, c)).1 =
        is.find? (fun i => decide (i.matches text = maxScoreFrom text c is)) := by
  induction is with
  | nil => intro b c hc; exact absurd hc (lt_irrefl c)
  | cons i rest ih =>
    intro b c hc
    by_cases hstep : c < i.matches text
    · have hmax : max c (i.matches text) = i.matches text := max_eq_right hstep.le
      rw [List.foldl_cons, stepBest_pos hstep]
      by_cases h2 : i.matches text < maxScoreFrom text (i.matches text) rest
      · rw [ih (some i) (i.matches text) h2]
        have hMeq : maxScoreFrom text c (i :: rest) = maxScoreFrom text (i.matches text) rest := by
          rw [maxScoreFrom_cons, hmax]
        have hne : ¬ (i.matches text = maxScoreFrom text c (i :: rest)) := by
          rw [hMeq]
          exact ne_of_lt h2
        rw [List.find?_cons_of_neg _ (by simpa using hne), hMeq]
      · have heq : maxScoreFrom text (i.matches text) rest = i.matches text :=
          le_antisymm (not_lt.mp h2) (le_maxScoreFrom text rest _)
        have hfst : (rest.foldl (stepBest text) (some i, i.matches text)).1 = some i := by
          apply foldBest_fst_of_max_le
          rw [heq]
          exact lt_irrefl _
        rw [hfst]
        have hpos : i.matches text = maxScoreFrom text c (i :: rest) := by
          rw [maxScoreFrom_cons, hmax, heq]
        rw [List.find?_cons_of_pos _ (by simpa using hpos)]
    · have hmax : max c (i.matches text) = c := max_eq_left (not_lt.mp hstep)
      have hMeq : maxScoreFrom text c (i :: rest) = maxScoreFrom text c rest := by
        rw [maxScoreFrom_cons, hmax]
      rw [List.foldl_cons, stepBest_neg hstep]
      have hc2 : c < maxScoreFrom text c rest := by
        rw [hMeq] at hc
        exact hc
      rw [ih b c hc2]
      have hne : ¬ (i.matches text = maxScoreFrom text c (i :: rest)) := by
        rw [hMeq]
        intro h
        rw [← h] at hc2
        exact hstep hc2
      rw [List.find?_cons_of_neg _ (by simpa using hne), hMeq]

theorem generalChatFallback_eq :
    generalChatFallback =
      { intent_type := .GENERAL_CHAT, confidence := 1/2,
        response_text := "Let me think about that.",
        data := some [("delegate_to_llm", PVal.b true)] } := by
  unfold generalChatFallback
  rw [mkRat_1_2]

/-- C4: on non-blank, non-vision input the winner of classification is the
first registered handler attaining the maximum score; its `handle` is
invoked exactly when that maximum exceeds 0.3, and otherwise the fixed
GeneralChat fallback (confidence 0.5, `delegate_to_llm = true`, the
generic "Let me think about that." text) is returned. -/
theorem C4_selection (env : Env) (text : String) (hb : pyBlank text = false)
    (hv : is_vision_request text = false) :
    (3/10 < scoreMax (intents env) text →
      ∃ w, (intents env).find?
            (fun i => decide (i.matches text = scoreMax (intents env) text)) = some w ∧
        classify_and_handle env text = w.handle text) ∧
    (¬ 3/10 < scoreMax (intents env) text →
      classify_and_handle env text =
        { intent_type := .GENERAL_CHAT, confidence := 1/2,
          response_text := "Let me think about that.",
          data := some [("delegate_to_llm", PVal.b true)] }) := by
  have hcls : classify_and_handle env text =
      (match findBest (intents env) text with
       | (some best_intent, best_confidence) =>
         if 3/10 < best_confidence then best_intent.handle text else generalChatFallback
       | (none, _) => generalChatFallback) := by
    unfold classify_and_handle
    simp only [hb, hv, Bool.false_eq_true, if_false, mkRat_3_10]
  have hsnd : (findBest (intents env) text).2 = scoreMax (intents env) text := by
    rw [findBest_eq_fold]
    exact foldBest_snd text (intents env) none 0
  constructor
  · intro h3
    have h0 : (0:ℚ) < scoreMax (intents env) text := lt_trans (by norm_num) h3
    have hfst : (findBest (intents env) text).1 =
        (intents env).find? (fun i => decide (i.matches text = scoreMax (intents env) text)) := by
      rw [findBest_eq_fold]
      exact foldBest_fst_of_lt text (intents env) none 0 h0
    obtain ⟨j, hj, hje⟩ := maxScoreFrom_attained text (intents env) 0 h0
    have hsome : ((intents env).find?
        (fun i => decide (i.matches text = scoreMax (intents env) text))).isSome := by
      apply List.find?_isSome.mpr
      exact ⟨j, hj, by simpa using hje⟩
    obtain ⟨w, hw⟩ := Option.isSome_iff_exists.mp hsome
    refine ⟨w, hw, ?_⟩
    rcases hfb : findBest (intents env) text with ⟨fb1, fb2⟩
    have h1 : fb1 = some w := by
      have hx := congrArg Prod.fst hfb
      simp only at hx
      rw [← hx, hfst, hw]
    have h2 : fb2 = scoreMax (intents env) text := by
      have hx := congrArg Prod.snd hfb
      simp only at hx
      rw [← hx, hsnd]
    rw [hcls, hfb, h1, h2]
    simp only []
    rw [if_pos h3]
  · intro h3
    rcases hfb : findBest (intents env) text with ⟨fb1, fb2⟩
    have h2 : fb2 = scoreMax (intents env) text := by
      have hx := congrArg Prod.snd hfb
      simp only at hx
      rw [← hx, hsnd]
    rw [hcls, hfb]
    cases fb1 with
    | none => exact generalChatFallback_eq
    | some w =>
      simp only []
      rw [if_neg (by rw [h2]; exact h3)]
      exact generalChatFallback_eq

/-- Witness for C4 at the concrete input "hello there": every handler
scores 0, so classification falls through to the GeneralChat result. -/
theorem C4_witness :
    pyBlank "hello there" = false ∧ is_vision_request "hello there" = false ∧
    classify_and_handle env0 "hello there" =
      { intent_type := .GENERAL_CHAT, confidence := 1/2,
        response_text := "Let me think about that.",
        data := some [("delegate_to_llm", PVal.b true)] } :=
  ⟨by decide, by decide,
   (C4_selection env0 "hello there" (by decide) (by decide)).2
     (by rw [show scoreMax (intents env0) "hello there" = 0 from by decide]; norm_num)⟩

/-! ## Helper lemmas: pipeline routing -/

theorem payloadGetBool_ne_nil {d : Payload} {k : String}
    (h : payloadGetBool d k = true) : d.isEmpty = false := by
  cases d with
  | nil => simp [payloadGetBool, List.find?] at h
  | cons p t => rfl

/-- C1 (amended): how Step 2 of `process_voice_input` routes a classifier
result.  A result carrying `delegate_to_vision` goes to the vision branch;
a successful result with a payload and neither delegation flag has its
`response_text` taken directly; a result carrying `delegate_to_llm` (and
not `delegate_to_vision`) goes to the generative branch; and — correcting
the claim — so does every result with `success = false` and no vision
flag, such as an unparsable timer duration: its `response_text` is
discarded and the generative model is called. -/
theorem C1_routing (r : IntentResult) :
    (resultVisionFlag r = true → routeIntentResult r = .vision) ∧
    (r.success = true → ∀ d, r.data = some d →
      payloadGetBool d "delegate_to_llm" = false →
      payloadGetBool d "delegate_to_vision" = false →
      routeIntentResult r = .direct r.response_text) ∧
    (resultVisionFlag r = false → resultLLMFlag r = true →
      routeIntentResult r = .generative) ∧
    (r.success = false → resultVisionFlag r = false →
      routeIntentResult r = .generative) := by
  obtain ⟨itype, conf, rt, succ, em, data⟩ := r
  refine ⟨?_, ?_, ?_, ?_⟩
  · intro hv
    cases data with
    | none => simp [resultVisionFlag] at hv
    | some d =>
      simp only [resultVisionFlag] at hv
      have hne := payloadGetBool_ne_nil hv
      cases succ <;> simp [routeIntentResult, hv, hne]
  · intro hs d hd hllm hvis
    simp only at hs hd
    subst hs
    subst hd
    simp [routeIntentResult, hllm, hvis]
  · intro hv hl
    cases data with
    | none => simp [resultLLMFlag] at hl
    | some d =>
      simp only [resultVisionFlag] at hv
      simp only [resultLLMFlag] at hl
      cases succ <;> simp [routeIntentResult, hv, hl]
  · intro hs hv
    simp only at hs
    subst hs
    cases data with
    | none => simp [routeIntentResult]
    | some d =>
      simp only [resultVisionFlag] at hv
      simp [routeIntentResult, hv]

/-- Witness for C1: the GeneralChat fallback result carries
`delegate_to_llm` and is routed to the generative branch. -/
theorem C1_witness : routeIntentResult generalChatFallback = .generative :=
  (C1_routing generalChatFallback).2.2.1 (by decide) (by decide)

/-- Counterexample to C1 as stated: on "set a timer please remind me" the
Timer handler wins classification but cannot parse a duration, so the
classifier returns `success = false` with no payload; the claim says its
`response_text` then becomes `assistant_text` directly, but the executor
routes this result to the generative branch. -/
theorem C1_counterexample :
    (classify_and_handle env0 "set a timer please remind me").success = false ∧
    (classify_and_handle env0 "set a timer please remind me").data = none ∧
    routeIntentResult (classify_and_handle env0 "set a timer please remind me") =
      .generative ∧
    routeIntentResult (classify_and_handle env0 "set a timer please remind me") ≠
      .direct (classify_and_handle env0 "set a timer please remind me").response_text := by
  refine ⟨by decide, by decide, by decide, ?_⟩
  rw [show routeIntentResult (classify_and_handle env0 "set a timer please remind me") =
        .generative from by decide]
  decide

/-- C2 (amended): when a turn is routed to vision delegation, the turn
executor does not consult the Vision Delegate Bridge at all — the turn's
`assistant_text` becomes the fixed placeholder sentence of
`pipeline.py` line 173, whatever the vision subsystem would say. -/
theorem C2_vision_placeholder (mode : PipelineMode) (penv : PipelineEnv)
    (st : PipelineState) (sim : Option String) (s : String)
    (hinit : st.is_initialized = true)
    (hacq : acquireUserText mode penv sim = some s)
    (hblank : pyBlank s = false)
    (hintents : penv.intentsAvailable = true)
    (hroute : routeIntentResult (classify_and_handle penv.intentEnv s) = .vision) :
    (process_voice_input mode penv st sim).1.assistant_text =
      some visionPlaceholderText := by
  have hresp : respondText penv s = .ok (some visionPlaceholderText) := by
    unfold respondText
    rw [hintents, if_pos rfl, hroute]
  have hpb : pyBlank visionPlaceholderText = false := by decide
  unfold process_voice_input
  by_cases htts : text_to_speech mode penv visionPlaceholderText = true <;>
    simp [hinit, hacq, hblank, hresp, hpb, htts]

/-- Witness for C2 (amended), on the concrete vision request
"what do you see" in simulation mode. -/
theorem C2_witness :
    (process_voice_input .simulation penv0 st0 (some "what do you see")).1.assistant_text =
      some visionPlaceholderText :=
  C2_vision_placeholder .simulation penv0 st0 (some "what do you see")
    "what do you see" rfl (by decide) (by decide) rfl (by decide)

/-- Counterexample to C2 as stated: two different vision requests both get
the same fixed placeholder sentence as `assistant_text` — the executor
never invokes `describe_scene`, whose output would start with "I can see"
or "I don't see" (see `format_detections_for_speech`). -/
theorem C2_counterexample :
    (process_voice_input .simulation penv0 st0 (some "what do you see")).1.assistant_text =
      some "Let me take a look around... I can see various objects in the scene." ∧
    (process_voice_input .simulation penv0 st0 (some "please use the camera now")).1.assistant_text =
      some "Let me take a look around... I can see various objects in the scene." := by
  constructor <;> decide

/-! ## Helper lemmas: timer duration parsing -/

theorem parseDurationLoop_shape :
    ∀ (ps : List RE) (text : List Char) (d : Nat), parseDurationLoop ps text = some d →
      ∃ a m, d = a * m ∧ (m = 1 ∨ m = 60 ∨ m = 3600) := by
  intro ps
  induction ps with
  | nil => intro text d h; simp [parseDurationLoop] at h
  | cons p rest ih =>
    intro text d h
    unfold parseDurationLoop at h
    split at h
    · split at h
      · split at h
        · obtain rfl := Option.some.inj h
          exact ⟨_, 1, (Nat.mul_one _).symm, Or.inl rfl⟩
        · split at h
          · obtain rfl := Option.some.inj h
            exact ⟨_, 60, rfl, Or.inr (Or.inl rfl)⟩
          · split at h
            · obtain rfl := Option.some.inj h
              exact ⟨_, 3600, rfl, Or.inr (Or.inr rfl)⟩
            · exact ih text d h
      · exact ih text d h
    · exact ih text d h

theorem parse_duration_shape (text : List Char) (d : Nat)
    (h : parse_duration text = some d) :
    ∃ a m, d = a * m ∧ (m = 1 ∨ m = 60 ∨ m = 3600) := by
  unfold parse_duration at h
  split at h
  · rename_i d' hl
    obtain rfl : d' = d := Option.some.inj h
    exact parseDurationLoop_shape timerPatterns text d' hl
  · split at h
    · simp at h
    · split at h
      · obtain rfl := Option.some.inj h
        exact ⟨_, 3600, rfl, Or.inr (Or.inr rfl)⟩
      · split at h
        · obtain rfl := Option.some.inj h
          exact ⟨_, 1, (Nat.mul_one _).symm, Or.inl rfl⟩
        · obtain rfl := Option.some.inj h
          exact ⟨_, 60, rfl, Or.inr (Or.inl rfl)⟩

/-- C6 (amended): whenever the Timer handler succeeds, the duration it
reports in its payload and stores in its timer table is the one parsed by
`_parse_duration`: a nonnegative amount times a unit multiplier from
{1, 60, 3600}.  It is strictly positive exactly when the parsed amount is
— correcting the claim, a zero amount ("set a timer for 0 minutes") is
accepted with a duration of 0 seconds. -/
theorem C6_timer_duration (env : Env) (text : String)
    (h : (timerHandleFull env text).1.success = true) :
    ∃ d, parse_duration (strLower text).data = some d ∧
      (timerHandleFull env text).1.data =
        some [("timer_id", PVal.s ("timer_" ++ toString env.epochNow)),
              ("duration", PVal.i d)] ∧
      (timerHandleFull env text).2 =
        some ("timer_" ++ toString env.epochNow,
              ⟨d, env.epochNow + d, formatDuration d⟩) ∧
      ∃ a m, d = a * m ∧ (m = 1 ∨ m = 60 ∨ m = 3600) ∧ (0 < d ↔ 0 < a) := by
  rcases hp : parse_duration (strLower text).data with _ | d
  · exfalso
    unfold timerHandleFull at h
    simp only [hp] at h
    exact Bool.false_ne_true h
  · refine ⟨d, rfl, ?_, ?_, ?_⟩
    · unfold timerHandleFull
      simp only [hp]
    · unfold timerHandleFull
      simp only [hp]
    · obtain ⟨a, m, hd, hm⟩ := parse_duration_shape _ _ hp
      refine ⟨a, m, hd, hm, ?_⟩
      subst hd
      rcases hm with rfl | rfl | rfl <;> omega

/-- Witness for C6 (amended) at "set a timer for 5 minutes". -/
theorem C6_witness :
    (timerHandleFull env0 "set a timer for 5 minutes").1.success = true ∧
    (∃ d, parse_duration (strLower "set a timer for 5 minutes").data = some d ∧
      (timerHandleFull env0 "set a timer for 5 minutes").1.data =
        some [("timer_id", PVal.s ("timer_" ++ toString env0.epochNow)),
              ("duration", PVal.i d)] ∧
      (timerHandleFull env0 "set a timer for 5 minutes").2 =
        some ("timer_" ++ toString env0.epochNow,
              ⟨d, env0.epochNow + d, formatDuration d⟩) ∧
      ∃ a m, d = a * m ∧ (m = 1 ∨ m = 60 ∨ m = 3600) ∧ (0 < d ↔ 0 < a)) :=
  ⟨by decide, C6_timer_duration env0 "set a timer for 5 minutes" (by decide)⟩

/-- Counterexample to C6 as stated: "set a timer for 0 minutes" is
accepted (`success = true`) with a parsed, reported and stored duration of
0 seconds. -/
theorem C6_counterexample :
    (timerHandleFull env0 "set a timer for 0 minutes").1.success = true ∧
    (timerHandleFull env0 "set a timer for 0 minutes").1.data =
      some [("timer_id", PVal.s "timer_1000"), ("duration", PVal.i 0)] ∧
    (timerHandleFull env0 "set a timer for 0 minutes").2 =
      some ("timer_1000", ⟨0, 1000, "0 seconds"⟩) := by
  refine ⟨by decide, by decide, by decide⟩

/-- C7: when the utterance is acquired, a non-blank response is generated,
and speech synthesis fails, the returned turn keeps the non-null
`assistant_text`, carries the text-to-speech failure message — distinct
from the "No response generated" message — and has `success = false`. -/
theorem C7_tts_failure (mode : PipelineMode) (penv : PipelineEnv)
    (st : PipelineState) (sim : Option String) (s a : String)
    (hinit : st.is_initialized = true)
    (hacq : acquireUserText mode penv sim = some s)
    (hblank : pyBlank s = false)
    (hresp : respondText penv s = .ok (some a))
    (hablank : pyBlank a = false)
    (htts : text_to_speech mode penv a = false) :
    (process_voice_input mode penv st sim).1.assistant_text = some a ∧
    (process_voice_input mode penv st sim).1.error_message = some "Text-to-speech failed" ∧
    (process_voice_input mode penv st sim).1.success = false ∧
    (process_voice_input mode penv st sim).1.error_message ≠ some "No response generated" := by
  have hturn : (process_voice_input mode penv st sim).1 =
      { user_text := some s, assistant_text := some a,
        error_message := some "Text-to-speech failed" } := by
    unfold process_voice_input
    simp [hinit, hacq, hblank, hresp, hablank, htts]
  rw [hturn]
  refine ⟨rfl, rfl, rfl, ?_⟩
  simp

/-- Witness for C7: hardware mode with failing TTS on the concrete
utterance "hello there". -/
theorem C7_witness :
    (process_voice_input .hardware penvTTSFail st0 none).1.assistant_text =
      some "[generated] User: hello there\nAssistant:" ∧
    (process_voice_input .hardware penvTTSFail st0 none).1.error_message =
      some "Text-to-speech failed" ∧
    (process_voice_input .hardware penvTTSFail st0 none).1.success = false ∧
    (process_voice_input .hardware penvTTSFail st0 none).1.error_message ≠
      some "No response generated" :=
  C7_tts_failure .hardware penvTTSFail st0 none "hello there"
    "[generated] User: hello there\nAssistant:" rfl rfl (by decide) (by rfl)
    (by decide) rfl

/-! ## Helper lemmas: detection grouping -/

theorem bumpCount_sum (l : List (String × Nat)) (name : String) :
    countSum (bumpCount l name) = countSum l + 1 := by
  induction l with
  | nil => rfl
  | cons p t ih =>
    unfold bumpCount
    by_cases hk : p.1 = name
    · rcases p with ⟨k, v⟩
      simp only at hk
      rw [if_pos hk]
      simp [countSum]
      omega
    · rcases p with ⟨k, v⟩
      simp only at hk
      rw [if_neg hk]
      simp only [countSum, List.map_cons, List.sum_cons] at ih ⊢
      omega

theorem objectCounts_sum_aux (ds : List DetectionResult) :
    ∀ acc : List (String × Nat),
      countSum (ds.foldl (fun acc d => bumpCount acc d.class_name) acc) =
        countSum acc + ds.length := by
  induction ds with
  | nil => intro acc; simp
  | cons d t ih =>
    intro acc
    rw [List.foldl_cons]
    rw [ih (bumpCount acc d.class_name), bumpCount_sum]
    simp only [List.length_cons]
    omega

theorem objectCounts_sum (ds : List DetectionResult) :
    countSum (objectCounts ds) = ds.length := by
  have := objectCounts_sum_aux ds []
  unfold objectCounts
  simpa [countSum] using this

theorem bumpCount_pos (l : List (String × Nat)) (name : String)
    (h : ∀ p ∈ l, 1 ≤ p.2) : ∀ p ∈ bumpCount l name, 1 ≤ p.2 := by
  induction l with
  | nil =>
    intro p hp
    simp only [bumpCount, List.mem_singleton] at hp
    subst hp
    exact le_refl 1
  | cons q t ih =>
    intro p hp
    rcases q with ⟨k, v⟩
    unfold bumpCount at hp
    by_cases hk : k = name
    · rw [if_pos hk] at hp
      rcases List.mem_cons.mp hp with rfl | hmem
      · have := h (k, v) (List.mem_cons_self _ _)
        simp only at this ⊢
        omega
      · exact h p (List.mem_cons_of_mem _ hmem)
    · rw [if_neg hk] at hp
      rcases List.mem_cons.mp hp with rfl | hmem
      · exact h (k, v) (List.mem_cons_self _ _)
      · exact ih (fun q hq => h q (List.mem_cons_of_mem _ hq)) p hmem

theorem objectCounts_pos_aux (ds : List DetectionResult) :
    ∀ acc : List (String × Nat), (∀ p ∈ acc, 1 ≤ p.2) →
      ∀ p ∈ ds.foldl (fun acc d => bumpCount acc d.class_name) acc, 1 ≤ p.2 := by
  induction ds with
  | nil => intro acc hacc; simpa using hacc
  | cons d t ih =>
    intro acc hacc
    rw [List.foldl_cons]
    exact ih (bumpCount acc d.class_name) (bumpCount_pos acc d.class_name hacc)

theorem objectCounts_pos (ds : List DetectionResult) :
    ∀ p ∈ objectCounts ds, 1 ≤ p.2 :=
  objectCounts_pos_aux ds [] (by simp)

theorem length_le_countSum (l : List (String × Nat)) (h : ∀ p ∈ l, 1 ≤ p.2) :
    l.length ≤ countSum l := by
  induction l with
  | nil => simp [countSum]
  | cons p t ih =>
    have h1 := h p (List.mem_cons_self _ _)
    have h2 := ih (fun q hq => h q (List.mem_cons_of_mem _ hq))
    simp only [countSum, List.map_cons, List.sum_cons, List.length_cons] at h2 ⊢
    omega

/-- C8 (amended): `format_detections_for_speech`, case by case.  Zero
detections give the fixed sentence; a single detection — correcting the
claim — additionally reports its confidence percentage rather than the
bare "I can see a {class}" form; two or more detections of one distinct
class give the count-pluralized sentence (the count necessarily exceeds
1); exactly two distinct classes give the "X and Y" phrasing; three or
more give the Oxford-comma list.  Grouping is by class name in
first-occurrence order. -/
theorem C8_formatting (ds : List DetectionResult) :
    (ds = [] → format_detections_for_speech ds =
      "I don't see any recognizable objects in the image.") ∧
    (∀ d, ds = [d] → format_detections_for_speech ds =
      "I can see a " ++ d.class_name ++ " with " ++ fmtPercent d.confidence ++ " confidence.") ∧
    (∀ n c, 2 ≤ ds.length → objectCounts ds = [(n, c)] →
      c = ds.length ∧
      format_detections_for_speech ds = "I can see " ++ toString c ++ " " ++ n ++ "s.") ∧
    (∀ e₁ e₂, objectCounts ds = [e₁, e₂] →
      format_detections_for_speech ds =
        "I can see " ++ itemPhrase e₁ ++ " and " ++ itemPhrase e₂ ++ ".") ∧
    (3 ≤ (objectCounts ds).length →
      format_detections_for_speech ds =
        "I can see " ++
          String.intercalate ", " (((objectCounts ds).map itemPhrase).dropLast) ++
          ", and " ++ ((objectCounts ds).map itemPhrase).getLastD "" ++ ".") := by
  refine ⟨?_, ?_, ?_, ?_, ?_⟩
  · rintro rfl
    rfl
  · rintro d rfl
    rfl
  · intro n c hlen hoc
    have hsum : c = ds.length := by
      have := objectCounts_sum ds
      rw [hoc] at this
      simpa [countSum] using this
    refine ⟨hsum, ?_⟩
    match ds, hlen with
    | d1 :: d2 :: rest, _ =>
      show (match objectCounts (d1 :: d2 :: rest) with
            | [(name, count)] =>
              if count = 1 then "I can see a " ++ name ++ "."
              else "I can see " ++ toString count ++ " " ++ name ++ "s."
            | oc =>
              let items := oc.map itemPhrase
              match items with
              | [x, y] => "I can see " ++ x ++ " and " ++ y ++ "."
              | _ =>
                "I can see " ++ String.intercalate ", " items.dropLast ++
                  ", and " ++ items.getLastD "" ++ ".") = _
      rw [hoc]
      have hc1 : c ≠ 1 := by
        simp only [List.length_cons] at hsum
        omega
      simp [hc1]
  · intro e₁ e₂ hoc
    have hlen : 2 ≤ ds.length := by
      have hsum := objectCounts_sum ds
      rw [hoc] at hsum
      have h1 := objectCounts_pos ds e₁ (by rw [hoc]; exact List.mem_cons_self _ _)
      have h2 := objectCounts_pos ds e₂ (by rw [hoc]; simp)
      simp only [countSum, List.map_cons, List.map_nil, List.sum_cons, List.sum_nil] at hsum
      omega
    match ds, hlen with
    | d1 :: d2 :: rest, _ =>
      show (match objectCounts (d1 :: d2 :: rest) with
            | [(name, count)] =>
              if count = 1 then "I can see a " ++ name ++ "."
              else "I can see " ++ toString count ++ " " ++ name ++ "s."
            | oc =>
              let items := oc.map itemPhrase
              match items with
              | [x, y] => "I can see " ++ x ++ " and " ++ y ++ "."
              | _ =>
                "I can see " ++ String.intercalate ", " items.dropLast ++
                  ", and " ++ items.getLastD "" ++ ".") = _
      rw [hoc]
      rcases e₁ with ⟨n₁, c₁⟩
      rcases e₂ with ⟨n₂, c₂⟩
      rfl
  · intro hlen3
    have hlen : 2 ≤ ds.length := by
      have hsum := objectCounts_sum ds
      have := length_le_countSum (objectCounts ds) (objectCounts_pos ds)
      omega
    match ds, hlen with
    | d1 :: d2 :: rest, _ =>
      show (match objectCounts (d1 :: d2 :: rest) with
            | [(name, count)] =>
              if count = 1 then "I can see a " ++ name ++ "."
              else "I can see " ++ toString count ++ " " ++ name ++ "s."
            | oc =>
              let items := oc.map itemPhrase
              match items with
              | [x, y] => "I can see " ++ x ++ " and " ++ y ++ "."
              | _ =>
                "I can see " ++ String.intercalate ", " items.dropLast ++
                  ", and " ++ items.getLastD "" ++ ".") = _
      match hoc : objectCounts (d1 :: d2 :: rest), hlen3' : hlen3 with
      | a :: b :: c :: t, _ => rfl

/-- Counterexample to C8 as stated: a single detection of one distinct
class is not described as "I can see a person." — the sentence also
reports the detection confidence. -/
theorem C8_counterexample :
    format_detections_for_speech [⟨"person", mkRat 9 10, (0, 0, 10, 10), 0⟩] =
      "I can see a person with 90% confidence." ∧
    format_detections_for_speech [⟨"person", mkRat 9 10, (0, 0, 10, 10), 0⟩] ≠
      "I can see a person." := by
  refine ⟨by decide, by decide⟩

/-- Witness for C8 (amended): two detections of distinct classes get the
"a X and a Y" phrasing. -/
theorem C8_witness :
    objectCounts [⟨"person", mkRat 9 10, (0, 0, 10, 10), 0⟩,
                  ⟨"chair", mkRat 4 5, (20, 20, 40, 40), 56⟩] =
      [("person", 1), ("chair", 1)] ∧
    format_detections_for_speech
        [⟨"person", mkRat 9 10, (0, 0, 10, 10), 0⟩,
         ⟨"chair", mkRat 4 5, (20, 20, 40, 40), 56⟩] =
      "I can see " ++ itemPhrase ("person", 1) ++ " and " ++ itemPhrase ("chair", 1) ++ "." :=
  ⟨by decide,
   (C8_formatting [⟨"person", mkRat 9 10, (0, 0, 10, 10), 0⟩,
                   ⟨"chair", mkRat 4 5, (20, 20, 40, 40), 56⟩]).2.2.2.1
     ("person", 1) ("chair", 1) (by decide)⟩

/-- C9 (amended): (1) in every reachable gate state in which the wake-word
callback's conversation is executing, `is_listening` is false — the
callback stopped the gate before the conversation — and no step from such
a state reads an audio frame, so polling never overlaps a conversation;
(2) from any conversation state of a running assistant, the error path of
the callback restarts listening, returning the gate to a state that polls
again.  (The claim's stronger reading — that polling resumes only after
the callback returns — fails: see the counterexample.) -/
theorem C9_gate_exclusion :
    (∀ s : GateState, GateReach s → s.phase = .inConvo →
      s.is_listening = false ∧ ∀ s' : GateState, GateStep s s' → s'.phase ≠ .inFrame) ∧
    (∀ s : GateState, s.phase = .inConvo → s.is_running = true →
      GateStep s { s with is_listening := true, phase := .loopHead }) := by
  constructor
  · have hinv : ∀ s : GateState, GateReach s → s.phase = .inConvo → s.is_listening = false := by
      intro s hr
      induction hr with
      | init => intro h; exact absurd h (by simp [gateInit])
      | step _ hstep ih =>
        intro hphase
        cases hstep with
        | start h1 h2 => simp at hphase
        | pollEnter h1 h2 => simp at hphase
        | pollNoWake h1 => simp at hphase
        | wake h1 => rfl
        | convoDone h1 h2 => simp at hphase
        | convoErr h1 h2 => simp at hphase
        | convoNoRestart h1 h2 => simp at hphase
        | loopExitNested d h1 h2 h3 => simp at hphase
        | loopExitTop h1 h2 h3 => simp at hphase
        | stopAll => rfl
    intro s hr hphase
    refine ⟨hinv s hr hphase, ?_⟩
    intro s' hstep
    cases hstep with
    | start h1 h2 => rw [hphase] at h1; exact absurd h1 (by simp)
    | pollEnter h1 h2 => rw [hphase] at h1; exact absurd h1 (by simp)
    | pollNoWake h1 => simp
    | wake h1 => rw [hphase] at h1; exact absurd h1 (by simp)
    | convoDone h1 h2 => simp
    | convoErr h1 h2 => simp
    | convoNoRestart h1 h2 => simp
    | loopExitNested d h1 h2 h3 => rw [hphase] at h1; exact absurd h1 (by simp)
    | loopExitTop h1 h2 h3 => rw [hphase] at h1; exact absurd h1 (by simp)
    | stopAll => simp [hphase]
  · intro s hphase hrun
    exact GateStep.convoErr s hphase hrun

/-- Witness for C9 (amended), at the reachable conversation state of
depth 1. -/
theorem C9_witness :
    (GateState.mk false true 1 .inConvo).is_listening = false ∧
    (∀ s' : GateState, GateStep ⟨false, true, 1, .inConvo⟩ s' → s'.phase ≠ .inFrame) ∧
    GateStep ⟨false, true, 1, .inConvo⟩ ⟨true, true, 1, .loopHead⟩ := by
  have hreach : GateReach ⟨false, true, 1, .inConvo⟩ :=
    GateReach.step
      (GateReach.step (GateReach.step GateReach.init (GateStep.start gateInit rfl rfl))
        (GateStep.pollEnter ⟨true, true, 0, .loopHead⟩ rfl rfl))
      (GateStep.wake ⟨true, true, 0, .inFrame⟩ rfl)
  refine ⟨?_, ?_, ?_⟩
  · exact (C9_gate_exclusion.1 ⟨false, true, 1, .inConvo⟩ hreach rfl).1
  · exact (C9_gate_exclusion.1 ⟨false, true, 1, .inConvo⟩ hreach rfl).2
  · exact C9_gate_exclusion.2 ⟨false, true, 1, .inConvo⟩ rfl rfl

/-- Counterexample to C9 as stated: polling resumes inside the callback
(through the nested `start_listening` of `parvis.py` line 119) before the
callback returns, so a state that reads audio frames while a callback
invocation is still on the stack is reachable, and a second trigger then
re-enters the callback while the first invocation is still executing
(depth 2). -/
theorem C9_counterexample :
    GateReach ⟨true, true, 1, .inFrame⟩ ∧ GateReach ⟨false, true, 2, .inConvo⟩ := by
  have r1 : GateReach ⟨true, true, 0, .loopHead⟩ :=
    GateReach.step GateReach.init (GateStep.start gateInit rfl rfl)
  have r2 : GateReach ⟨true, true, 0, .inFrame⟩ :=
    GateReach.step r1 (GateStep.pollEnter ⟨true, true, 0, .loopHead⟩ rfl rfl)
  have r3 : GateReach ⟨false, true, 1, .inConvo⟩ :=
    GateReach.step r2 (GateStep.wake ⟨true, true, 0, .inFrame⟩ rfl)
  have r4 : GateReach ⟨true, true, 1, .loopHead⟩ :=
    GateReach.step r3 (GateStep.convoDone ⟨false, true, 1, .inConvo⟩ rfl rfl)
  have r5 : GateReach ⟨true, true, 1, .inFrame⟩ :=
    GateReach.step r4 (GateStep.pollEnter ⟨true, true, 1, .loopHead⟩ rfl rfl)
  exact ⟨r5, GateReach.step r5 (GateStep.wake ⟨true, true, 1, .inFrame⟩ rfl)⟩

/-! ## Helper lemmas: the conversation history -/

theorem process_voice_input_history (mode : PipelineMode) (penv : PipelineEnv)
    (st : PipelineState) (x : Option String) :
    (process_voice_input mode penv st x).2.conversation_history =
        st.conversation_history ∨
      ∃ turn : ConversationTurn, turn.success = true ∧
        (process_voice_input mode penv st x).2.conversation_history =
          st.conversation_history ++ [turn] := by
  unfold process_voice_input
  split
  · exact Or.inl rfl
  · split
    · exact Or.inl rfl
    · split
      · exact Or.inl rfl
      · split
        · exact Or.inl rfl
        · exact Or.inl rfl
        · split
          · exact Or.inl rfl
          · split
            · exact Or.inl rfl
            · exact Or.inr ⟨_, rfl, rfl⟩

theorem runPipeline_all_success (mode : PipelineMode) (penv : PipelineEnv)
    (inputs : List (Option String)) :
    ∀ st : PipelineState, (∀ t ∈ st.conversation_history, t.success = true) →
      ∀ t ∈ (runPipeline mode penv st inputs).conversation_history, t.success = true := by
  induction inputs with
  | nil => intro st hst; exact hst
  | cons x xs ih =>
    intro st hst
    unfold runPipeline
    apply ih
    rcases process_voice_input_history mode penv st x with h | ⟨turn, hturn, h⟩
    · rw [h]
      exact hst
    · rw [h]
      intro t ht
      rcases List.mem_append.mp ht with hmem | hmem
      · exact hst t hmem
      · rw [List.mem_singleton.mp hmem]
        exact hturn

/-- C10: starting from an empty history, every turn recorded by any
sequence of `process_voice_input` calls has `success = true` (only
successful turns are appended), and whenever the history is non-empty,
`get_performance_stats` reports a success rate of exactly 100. -/
theorem C10_history_success (mode : PipelineMode) (penv : PipelineEnv)
    (inputs : List (Option String)) (init : Bool) :
    (∀ t ∈ (runPipeline mode penv ⟨init, []⟩ inputs).conversation_history,
       t.success = true) ∧
    ((runPipeline mode penv ⟨init, []⟩ inputs).conversation_history ≠ [] →
      performance_success_rate (runPipeline mode penv ⟨init, []⟩ inputs) = some 100) := by
  have hall : ∀ t ∈ (runPipeline mode penv ⟨init, []⟩ inputs).conversation_history,
      t.success = true :=
    runPipeline_all_success mode penv inputs ⟨init, []⟩ (by simp)
  refine ⟨hall, ?_⟩
  intro hne
  unfold performance_success_rate
  rw [if_neg (by simpa using hne)]
  have hfilter : (runPipeline mode penv ⟨init, []⟩ inputs).conversation_history.filter
      (fun t => t.success) = (runPipeline mode penv ⟨init, []⟩ inputs).conversation_history :=
    List.filter_eq_self.mpr hall
  rw [hfilter, if_neg (by simpa using hne)]
  have hlen : ((runPipeline mode penv ⟨init, []⟩ inputs).conversation_history.length : ℚ) ≠ 0 := by
    have hpos := List.length_pos.mpr hne
    exact_mod_cast Nat.pos_iff_ne_zero.mp hpos
  rw [div_self hlen]
  norm_num

/-- Witness for C10: a concrete two-turn run (a general-chat turn and a
time query) in simulation mode, giving a 100 percent success rate. -/
theorem C10_witness :
    (runPipeline .simulation penv0 ⟨true, []⟩
        [some "hello there", some "what time is it"]).conversation_history ≠ [] ∧
    performance_success_rate
        (runPipeline .simulation penv0 ⟨true, []⟩
          [some "hello there", some "what time is it"]) = some 100 :=
  ⟨by decide,
   (C10_history_success .simulation penv0 [some "hello there", some "what time is it"] true).2
     (by decide)⟩
